import Mathlib

/-!
Shallow embedding of the PMS funding-event reconciliation core:

* `final_statuses.py` — finality classifier (`is_final`)
* `event_deduplicator.py` — `_event_is_final`, `deduplicate_events`
* `account_monitor.py` — `_is_final`, `poll_and_apply_funding` (per-event body),
  `close_twr_segment`, `format_snapshot_msg` (money-weighted return),
  `main` (state init, lazy init, period close)

Python floats are modelled as rationals (`ℚ`); dict-shaped mutable account
state is modelled as an explicit record; exceptions are modelled with
`Option`.
-/

namespace PMS

/-! ## Account ledger state (account_monitor.main, lines 889-897) -/

/-- Per-account ledger state, the `accounts_state[lb]` dict of
`account_monitor.py` (initialised at lines 889-897).  `seen_ids` is kept as a
finite set: the code stores `sorted(list(seen))`, which is determined by the
set. -/
structure AccountState where
  start_value : Option ℚ
  net_flows : ℚ
  seen_ids : Finset String
  twr_factor : ℚ
  segment_start_value : Option ℚ
  segment_net_flows : ℚ
  deriving DecidableEq

/-- The freshly initialised account state (account_monitor.py lines 890-897). -/
def init_state : AccountState :=
  { start_value := none
    net_flows := 0
    seen_ids := ∅
    twr_factor := 1
    segment_start_value := none
    segment_net_flows := 0 }

/-! ## Return calculator (account_monitor.close_twr_segment, lines 649-659) -/

/-- `close_twr_segment(state_acct, V_end_preflow, V_start_next)`.
`state_acct.get("segment_start_value") or 0.0` maps `None` (and `0.0`) to `0`,
hence `Option.getD 0`.  The Python `V_end_preflow is not None` test is vacuous
here because the argument is a number. -/
def close_twr_segment (st : AccountState) (V_end_preflow : ℚ)
    (V_start_next : Option ℚ) : AccountState :=
  let denom := st.segment_start_value.getD 0 + st.segment_net_flows
  let twr :=
    if 0 < denom ∧ 0 ≤ V_end_preflow then
      let factor := V_end_preflow / denom
      if 0 < factor then st.twr_factor * factor else st.twr_factor
    else st.twr_factor
  { st with
    twr_factor := twr
    segment_start_value := some (V_start_next.getD V_end_preflow)
    segment_net_flows := 0 }

/-! ## Funding events (account_monitor.poll_and_apply_funding, lines 601-645) -/

/-- A normalised funding event as produced by the fetchers in
`account_monitor.py` (fields `id`, `type`, `timestamp`, `currency`, `amount`,
`status`).  Currencies are the upper-cased canonical strings the code uses. -/
structure FundingEvent where
  id : String
  type : String
  timestamp : Int
  currency : String
  amount : ℚ
  status : Option String
  deriving DecidableEq

/-- The valuation of an event:
`px = prices.get(ccy) or (1.0 if ccy == quote_ccy else None)` followed by
`val = amt * px if px else None` (lines 616-617).  A price of `0` is falsy in
Python, so it falls through to the quote-currency fallback. -/
def eventValuation (prices : String → Option ℚ) (quote : String)
    (ev : FundingEvent) : Option ℚ :=
  let px : Option ℚ :=
    match prices ev.currency with
    | some p =>
        if p = 0 then (if ev.currency = quote then some 1 else none) else some p
    | none => if ev.currency = quote then some 1 else none
  match px with
  | some p => some (ev.amount * p)
  | none => none

/-- `flow_val = val if val is not None else amt` (line 621). -/
def flowValue (prices : String → Option ℚ) (quote : String)
    (ev : FundingEvent) : ℚ :=
  (eventValuation prices quote ev).getD ev.amount

/-- One iteration of the event loop of `poll_and_apply_funding`
(lines 610-641), returning the updated state and whether the event was
applied.  Note the deposit branch computes
`pre = max(val_now_post - (val or 0.0), 0.0)` — it subtracts the *valuation or
zero*, not `flow_val` — while `net_flows` moves by `flow_val`. -/
def apply_funding_event (prices : String → Option ℚ) (quote : String)
    (val_now_post : ℚ) (st : AccountState) (ev : FundingEvent) :
    AccountState × Bool :=
  if ev.id ∈ st.seen_ids then (st, false)
  else
    let val := eventValuation prices quote ev
    let flow_val := val.getD ev.amount
    if ev.type = "deposit" then
      let pre := max (val_now_post - val.getD 0) 0
      let st1 := close_twr_segment st pre (some val_now_post)
      ({ st1 with
          net_flows := st1.net_flows + flow_val
          seen_ids := insert ev.id st1.seen_ids }, true)
    else
      let pre := val_now_post + val.getD 0
      let st1 := close_twr_segment st pre (some val_now_post)
      ({ st1 with
          net_flows := st1.net_flows - flow_val
          seen_ids := insert ev.id st1.seen_ids }, true)

/-- The whole event loop of `poll_and_apply_funding` folded over a fetched
event list (one polling tick for one account). -/
def poll_apply (prices : String → Option ℚ) (quote : String)
    (val_now_post : ℚ) (st : AccountState) (evs : List FundingEvent) :
    AccountState :=
  evs.foldl (fun s ev => (apply_funding_event prices quote val_now_post s ev).1) st

/-! ## Remaining ledger operations from `main` -/

/-- Lazy initialisation of `start_value` / `segment_start_value` from the
first valuation (account_monitor.py lines 948-953). -/
def lazy_init (st : AccountState) (current : ℚ) : AccountState :=
  { st with
    start_value := some (st.start_value.getD current)
    segment_start_value := some (st.segment_start_value.getD current) }

/-- The daily 4pm period close for one account: a final
`close_twr_segment(st, V_now, V_start_next=V_now)` (line 1003) followed by the
full reset of lines 1031-1037. -/
def period_close (st : AccountState) (current : ℚ) : AccountState :=
  let st1 := close_twr_segment st current (some current)
  { st1 with
    start_value := some current
    net_flows := 0
    twr_factor := 1
    segment_start_value := some current
    segment_net_flows := 0 }

/-- The ledger operations the polling loop performs on one account's state. -/
inductive LedgerOp where
  | lazyInit (current : ℚ)
  | applyEvent (prices : String → Option ℚ) (quote : String)
      (valNowPost : ℚ) (ev : FundingEvent)
  | closeSeg (vEnd : ℚ) (vNext : Option ℚ)
  | periodClose (current : ℚ)

/-- Run one ledger operation. -/
def runOp (st : AccountState) : LedgerOp → AccountState
  | .lazyInit c => lazy_init st c
  | .applyEvent p q v ev => (apply_funding_event p q v st ev).1
  | .closeSeg vEnd vNext => close_twr_segment st vEnd vNext
  | .periodClose c => period_close st c

/-- Run a sequence of ledger operations. -/
def runOps (st : AccountState) (ops : List LedgerOp) : AccountState :=
  ops.foldl runOp st

/-! ## Finality classifier (final_statuses.py) -/

/-- ASCII lower-casing of one character, as `str.lower()` acts on the ASCII
status and exchange tokens used throughout the code. -/
def lowerChar (c : Char) : Char :=
  if 'A' ≤ c ∧ c ≤ 'Z' then Char.ofNat (c.toNat + 32) else c

/-- `str.lower()` on the ASCII tokens the code compares. -/
def strLower (s : String) : String := ⟨s.data.map lowerChar⟩

/-- A whitespace character in the sense of `str.strip()` (ASCII subset). -/
def isPySpace (c : Char) : Bool :=
  c = ' ' ∨ c = '\t' ∨ c = '\n' ∨ c = '\r'

/-- `str.strip()`: drop whitespace from both ends. -/
def strStrip (s : String) : String :=
  ⟨((s.data.dropWhile isPySpace).reverse.dropWhile isPySpace).reverse⟩

/-- `str(status).strip().lower()` (final_statuses.py line 112). -/
def normalizeStatus (s : String) : String := strLower (strStrip s)

/-- `_status_final_binance`, `_status_final_bybit`, `_status_final_okx` and
the `_FINAL_STATUS_MAP` double lookup of final_statuses.py (lines 25-94,
116).  `none` models the `KeyError` on an unknown exchange or direction. -/
def finalStatusTable (exchange direction : String) : Option (List String) :=
  if exchange = "binance" then
    if direction = "deposit" then
      some ["1", "6", "success", "credited but cannot withdraw"]
    else if direction = "withdraw" then
      some ["1", "3", "5", "6", "cancelled", "canceled", "rejected",
            "failure", "completed"]
    else none
  else if exchange = "bybit" then
    if direction = "deposit" then
      some ["3", "4", "success", "failed"]
    else if direction = "withdraw" then
      some ["5", "6", "7", "8", "cancelled", "rejected", "failed",
            "expired", "completed"]
    else none
  else if exchange = "okx" then
    if direction = "deposit" then
      some ["2", "8", "9", "success", "credited", "failed"]
    else if direction = "withdraw" then
      some ["6", "7", "8", "9", "10", "completed", "cancelled", "failed",
            "rejected"]
    else none
  else none

/-- `final_statuses.is_final(exchange, direction, status)` (lines 97-121).
`extra` models the `EXTRA_FINAL_STATUSES` environment set, whose members are
already stripped and lower-cased on load.  A result of `none` models the
`ValueError` raised on an unknown `(exchange, direction)` pair; note that an
extra status short-circuits *before* the table lookup. -/
def is_final (extra : List String) (exchange direction status : String) :
    Option Bool :=
  let sn := normalizeStatus status
  if sn ∈ extra then some true
  else
    match finalStatusTable (strLower exchange) (strLower direction) with
    | none => none
    | some finalSet => some (sn ∈ finalSet)

/-! ## Event deduplicator (event_deduplicator.py) -/

/-- A raw event dict as consumed by `deduplicate_events`: every field the
function reads, each possibly missing. -/
structure RawEvent where
  uid : Option String
  id : Option String
  exchange_id : Option String
  txId : Option String
  currency : Option String
  timestamp : Option Int
  type : Option String
  status : Option String
  deriving DecidableEq

/-- Python truthiness of an optional string: `None` and `""` are falsy. -/
def truthyStr : Option String → Option String
  | none => none
  | some s => if s = "" then none else some s

/-- `event.get("uid") or event.get("id") or event.get("exchange_id")`
(event_deduplicator.py lines 63-67).  The last operand of `or` is returned
unfiltered, so an `exchange_id` of `""` still yields `some ""`. -/
def nativeUniqueId (ev : RawEvent) : Option String :=
  match truthyStr ev.uid with
  | some s => some s
  | none =>
    match truthyStr ev.id with
    | some s => some s
    | none => ev.exchange_id

/-- A deduplication key: the native id when `unique_id is not None`, else the
composite tuple `(txId, currency, timestamp)` (lines 68-72).  In Python the
two shapes live in one dict but a string never equals a tuple, so a sum type
is faithful. -/
inductive DedupKey where
  | native (s : String)
  | composite (txId : Option String) (currency : Option String)
      (timestamp : Option Int)
  deriving DecidableEq

/-- The canonical key of one event (lines 63-72). -/
def dedupKey (ev : RawEvent) : DedupKey :=
  match nativeUniqueId ev with
  | some s => .native s
  | none => .composite ev.txId ev.currency ev.timestamp

/-- `kind = str(event.get("type") or "").lower()`, with `"withdrawal"`
rewritten to `"withdraw"` (event_deduplicator.py lines 20-22). -/
def eventKind (ev : RawEvent) : String :=
  let k := strLower (ev.type.getD "")
  if k = "withdrawal" then "withdraw" else k

/-- `event_deduplicator._event_is_final(exchange, event)` (lines 8-29): false
on a falsy exchange, a kind other than deposit/withdraw, a missing status, or
when `is_final` raises (the `except Exception` guard). -/
def event_is_final (extra : List String) (exchange : Option String)
    (ev : RawEvent) : Bool :=
  match exchange with
  | none => false
  | some ex =>
    if ex = "" then false
    else if eventKind ev ≠ "deposit" ∧ eventKind ev ≠ "withdraw" then false
    else
      match ev.status with
      | none => false
      | some st =>
        match is_final extra ex (eventKind ev) st with
        | some b => b
        | none => false

/-- Look up a key in the `seen` association list (the Python dict
`seen: key -> index`). -/
def lookupKeyIdx (seen : List (DedupKey × Nat)) (k : DedupKey) : Option Nat :=
  match seen with
  | [] => none
  | (k0, i) :: rest => if k0 = k then some i else lookupKeyIdx rest k

/-- One step of the deduplication loop body (event_deduplicator.py lines
62-83): append a new key, or replace the stored record when the incoming one
is final and the stored one is not. -/
def dedupStep (extra : List String) (exchange : Option String)
    (s : List (DedupKey × Nat) × List RawEvent) (ev : RawEvent) :
    List (DedupKey × Nat) × List RawEvent :=
  let key := dedupKey ev
  match lookupKeyIdx s.1 key with
  | none => (s.1 ++ [(key, s.2.length)], s.2 ++ [ev])
  | some idx =>
    match s.2.get? idx with
    | none => s
    | some existing =>
      if event_is_final extra exchange ev ∧
          ¬ event_is_final extra exchange existing then
        (s.1, s.2.set idx ev)
      else s

/-- `deduplicate_events(pages, exchange)` (lines 32-86): fold the step over
all events of all pages in order and return the surviving unique list. -/
def deduplicate_events (extra : List String) (exchange : Option String)
    (pages : List (List RawEvent)) : List RawEvent :=
  (pages.flatten.foldl (dedupStep extra exchange) ([], [])).2

/-! ## account_monitor's own finality wrapper (lines 317-329) -/

/-- `account_monitor._is_final(ex_id, kind, status)` (lines 321-329):
`trust` models `FLOW_TRUST_NONFINAL`.  The exchange id is lower-cased (with
`None` falsy-defaulted to `""`) before calling `final_statuses.is_final`; a
`ValueError` (modelled by `none`) falls back to membership of the normalised
status in a generic completed-token set. -/
def monitor_is_final (trust : Bool) (extra : List String)
    (ex_id : Option String) (kind status : String) : Bool :=
  if trust then true
  else
    let exid := strLower (ex_id.getD "")
    match is_final extra exid kind status with
    | some b => b
    | none =>
      normalizeStatus status ∈
        ["ok", "completed", "complete", "success", "succeeded", "done"]

/-! ## Money-weighted return (account_monitor.format_snapshot_msg, 814-819) -/

/-- The `money_ret` computation of `format_snapshot_msg`:
`money_ret = None`, then `if start and start != 0: money_ret =
(val - start - flows) / start`.  A `start` of `None` or `0.0` is falsy, so the
result stays `None`. -/
def money_weighted_return (start : Option ℚ) (value flows : ℚ) : Option ℚ :=
  match start with
  | none => none
  | some s => if s = 0 then none else some ((value - s - flows) / s)

/-! ## Spec-worded comparison definitions -/

/-- Modelled from the spec (§4.3 step 3): the deposit application as the spec
words it — "pre-flow value = max(current_total_value − flow_value, 0)", with
`flow_value` the valuation if known and the raw amount otherwise.  Written
from the spec's sentence for comparison with `apply_funding_event`. -/
def apply_deposit_claimed (prices : String → Option ℚ) (quote : String)
    (val_now_post : ℚ) (st : AccountState) (ev : FundingEvent) : AccountState :=
  let fv := flowValue prices quote ev
  let pre := max (val_now_post - fv) 0
  let st1 := close_twr_segment st pre (some val_now_post)
  { st1 with
    net_flows := st1.net_flows + fv
    seen_ids := insert ev.id st1.seen_ids }

/-- The deduplication key shape as the spec words it: "native id if present,
else composite (currency, timestamp)". -/
inductive ClaimedKey where
  | native (s : String)
  | composite (currency : Option String) (timestamp : Option Int)
  deriving DecidableEq

/-- Modelled from the spec (§4.2): the canonical key per the spec's words —
the native id when present, else exactly the pair (currency, timestamp).
Written for comparison with `dedupKey`. -/
def dedupKey_claimed (ev : RawEvent) : ClaimedKey :=
  match nativeUniqueId ev with
  | some s => .native s
  | none => .composite ev.currency ev.timestamp

/-! ## Concrete inputs used by counterexamples and witnesses -/

/-- A fresh ledger state whose open segment starts at a valuation of 1000. -/
def stC1 : AccountState := ⟨none, 0, ∅, 1, some 1000, 0⟩

/-- A deposit of 100 ABC with no available price. -/
def evC1 : FundingEvent := ⟨"d1", "deposit", 1, "ABC", 100, some "1"⟩

/-- A ledger state that has already seen event id `d2`. -/
def stSeen : AccountState := ⟨none, 0, {"d2"}, 1, some 1000, 0⟩

/-- A deposit whose id `d2` is already recorded in `stSeen`. -/
def evD2 : FundingEvent := ⟨"d2", "deposit", 2, "BTC", 1, some "1"⟩

/-- A pending Binance deposit record with native id `X1`. -/
def evP : RawEvent :=
  ⟨none, some "X1", none, none, some "BTC", some 1, some "deposit",
   some "pending"⟩

/-- A successful Binance deposit record with the same native id `X1`. -/
def evS : RawEvent :=
  ⟨none, some "X1", none, none, some "BTC", some 1, some "deposit",
   some "success"⟩

/-- A deposit record for an exchange absent from the finality table. -/
def evK : RawEvent :=
  ⟨none, some "K1", none, none, some "BTC", some 5, some "deposit",
   some "success"⟩

/-- A record without native id: txId `a`, currency BTC, timestamp 1. -/
def evA : RawEvent :=
  ⟨none, none, none, some "a", some "BTC", some 1, some "deposit",
   some "pending"⟩

/-- A record without native id: txId `b`, same currency and timestamp. -/
def evB : RawEvent :=
  ⟨none, none, none, some "b", some "BTC", some 1, some "deposit",
   some "pending"⟩

/-- Like `evA` (same txId, currency, timestamp) but with another status. -/
def evA2 : RawEvent :=
  ⟨none, none, none, some "a", some "BTC", some 1, some "deposit",
   some "success"⟩

/-! ## Helper lemmas -/

lemma close_twr_factor_eq (st : AccountState) (vEnd : ℚ) (vNext : Option ℚ) :
    (close_twr_segment st vEnd vNext).twr_factor =
      if 0 < st.segment_start_value.getD 0 + st.segment_net_flows ∧ 0 ≤ vEnd
          ∧ 0 < vEnd / (st.segment_start_value.getD 0 + st.segment_net_flows)
      then st.twr_factor
            * (vEnd / (st.segment_start_value.getD 0 + st.segment_net_flows))
      else st.twr_factor := by
  unfold close_twr_segment
  by_cases h1 : 0 < st.segment_start_value.getD 0 + st.segment_net_flows
  · by_cases h2 : (0 : ℚ) ≤ vEnd
    · by_cases h3 :
        0 < vEnd / (st.segment_start_value.getD 0 + st.segment_net_flows)
      · simp [h1, h2, h3]
      · simp [h1, h2, h3]
    · simp [h1, h2]
  · simp [h1]

lemma close_twr_frame (st : AccountState) (vEnd : ℚ) (vNext : Option ℚ) :
    (close_twr_segment st vEnd vNext).segment_start_value
        = some (vNext.getD vEnd)
    ∧ (close_twr_segment st vEnd vNext).segment_net_flows = 0
    ∧ (close_twr_segment st vEnd vNext).start_value = st.start_value
    ∧ (close_twr_segment st vEnd vNext).net_flows = st.net_flows
    ∧ (close_twr_segment st vEnd vNext).seen_ids = st.seen_ids := by
  unfold close_twr_segment
  exact ⟨rfl, rfl, rfl, rfl, rfl⟩

lemma close_twr_pos (st : AccountState) (vEnd : ℚ) (vNext : Option ℚ)
    (h : 0 < st.twr_factor) : 0 < (close_twr_segment st vEnd vNext).twr_factor := by
  rw [close_twr_factor_eq]
  split_ifs with hc
  · exact mul_pos h hc.2.2
  · exact h

lemma apply_of_mem (p : String → Option ℚ) (q : String) (v : ℚ)
    (st : AccountState) (ev : FundingEvent) (h : ev.id ∈ st.seen_ids) :
    apply_funding_event p q v st ev = (st, false) := by
  unfold apply_funding_event
  simp [h]

lemma apply_mem_seen (p : String → Option ℚ) (q : String) (v : ℚ)
    (st : AccountState) (ev : FundingEvent) :
    ev.id ∈ ((apply_funding_event p q v st ev).1).seen_ids := by
  unfold apply_funding_event
  by_cases h : ev.id ∈ st.seen_ids
  · simp [h]
  · by_cases hd : ev.type = "deposit" <;> simp [h, hd]

lemma apply_seen_mono (p : String → Option ℚ) (q : String) (v : ℚ)
    (st : AccountState) (ev : FundingEvent) :
    st.seen_ids ⊆ ((apply_funding_event p q v st ev).1).seen_ids := by
  unfold apply_funding_event
  by_cases h : ev.id ∈ st.seen_ids
  · simp [h]
  · by_cases hd : ev.type = "deposit" <;>
      simp [h, hd, close_twr_segment, Finset.subset_insert]

lemma apply_twr_pos (p : String → Option ℚ) (q : String) (v : ℚ)
    (st : AccountState) (ev : FundingEvent) (h : 0 < st.twr_factor) :
    0 < ((apply_funding_event p q v st ev).1).twr_factor := by
  unfold apply_funding_event
  by_cases hm : ev.id ∈ st.seen_ids
  · simpa [hm] using h
  · by_cases hd : ev.type = "deposit"
    · simpa [hm, hd] using close_twr_pos st _ (some v) h
    · simpa [hm, hd] using close_twr_pos st _ (some v) h

lemma apply_snf_zero (p : String → Option ℚ) (q : String) (v : ℚ)
    (st : AccountState) (ev : FundingEvent) (h : st.segment_net_flows = 0) :
    ((apply_funding_event p q v st ev).1).segment_net_flows = 0 := by
  unfold apply_funding_event
  by_cases hm : ev.id ∈ st.seen_ids
  · simpa [hm] using h
  · by_cases hd : ev.type = "deposit" <;> simp [hm, hd, close_twr_segment]

lemma runOp_twr_pos (st : AccountState) (op : LedgerOp)
    (h : 0 < st.twr_factor) : 0 < (runOp st op).twr_factor := by
  cases op with
  | lazyInit c => simpa [runOp, lazy_init] using h
  | applyEvent p q v ev => exact apply_twr_pos p q v st ev h
  | closeSeg a b => exact close_twr_pos st a b h
  | periodClose c => simp [runOp, period_close]

lemma runOp_snf_zero (st : AccountState) (op : LedgerOp)
    (h : st.segment_net_flows = 0) : (runOp st op).segment_net_flows = 0 := by
  cases op with
  | lazyInit c => simpa [runOp, lazy_init] using h
  | applyEvent p q v ev => exact apply_snf_zero p q v st ev h
  | closeSeg a b => simp [runOp, close_twr_segment]
  | periodClose c => simp [runOp, period_close]

lemma runOps_cons (st : AccountState) (op : LedgerOp) (ops : List LedgerOp) :
    runOps st (op :: ops) = runOps (runOp st op) ops := rfl

lemma runOps_twr_pos (ops : List LedgerOp) (st : AccountState)
    (h : 0 < st.twr_factor) : 0 < (runOps st ops).twr_factor := by
  induction ops generalizing st with
  | nil => simpa [runOps] using h
  | cons op rest ih =>
      rw [runOps_cons]
      exact ih _ (runOp_twr_pos st op h)

lemma runOps_snf_zero (ops : List LedgerOp) (st : AccountState)
    (h : st.segment_net_flows = 0) : (runOps st ops).segment_net_flows = 0 := by
  induction ops generalizing st with
  | nil => simpa [runOps] using h
  | cons op rest ih =>
      rw [runOps_cons]
      exact ih _ (runOp_snf_zero st op h)

lemma poll_apply_cons (p : String → Option ℚ) (q : String) (v : ℚ)
    (st : AccountState) (a : FundingEvent) (rest : List FundingEvent) :
    poll_apply p q v st (a :: rest)
      = poll_apply p q v ((apply_funding_event p q v st a).1) rest := rfl

lemma poll_seen_mono (p : String → Option ℚ) (q : String) (v : ℚ)
    (st : AccountState) (evs : List FundingEvent) :
    st.seen_ids ⊆ (poll_apply p q v st evs).seen_ids := by
  induction evs generalizing st with
  | nil => simp [poll_apply]
  | cons a rest ih =>
      rw [poll_apply_cons]
      exact (apply_seen_mono p q v st a).trans (ih _)

lemma poll_mem_seen (p : String → Option ℚ) (q : String) (v : ℚ)
    (st : AccountState) (evs : List FundingEvent) (ev : FundingEvent) :
    ev ∈ evs → ev.id ∈ (poll_apply p q v st evs).seen_ids := by
  induction evs generalizing st with
  | nil => intro h; cases h
  | cons a rest ih =>
      intro h
      rw [poll_apply_cons]
      rcases List.mem_cons.mp h with rfl | hrest
      · exact poll_seen_mono p q v _ rest (apply_mem_seen p q v st ev)
      · exact ih _ hrest

lemma poll_noop (p : String → Option ℚ) (q : String) (v : ℚ)
    (st : AccountState) (evs : List FundingEvent)
    (h : ∀ ev ∈ evs, ev.id ∈ st.seen_ids) : poll_apply p q v st evs = st := by
  induction evs with
  | nil => rfl
  | cons a rest ih =>
      rw [poll_apply_cons, apply_of_mem p q v st a (h a (List.mem_cons_self a rest))]
      exact ih fun ev hev => h ev (List.mem_cons_of_mem a hev)

lemma dedup_pair (extra : List String) (exchange : Option String)
    (a b : RawEvent) (hk : dedupKey a = dedupKey b) :
    deduplicate_events extra exchange [[a], [b]] =
      if event_is_final extra exchange b ∧ ¬ event_is_final extra exchange a
      then [b] else [a] := by
  have h2 : dedupStep extra exchange ([], []) a = ([(dedupKey a, 0)], [a]) := by
    simp [dedupStep, lookupKeyIdx]
  have h3 : deduplicate_events extra exchange [[a], [b]]
      = (dedupStep extra exchange ([(dedupKey a, 0)], [a]) b).2 := by
    simp [deduplicate_events, h2]
  have h4 : dedupStep extra exchange ([(dedupKey a, 0)], [a]) b
      = if event_is_final extra exchange b ∧ ¬ event_is_final extra exchange a
        then ([(dedupKey a, 0)], [b]) else ([(dedupKey a, 0)], [a]) := by
    simp only [dedupStep]
    rw [show lookupKeyIdx [(dedupKey a, 0)] (dedupKey b) = some 0 from by
      simp [lookupKeyIdx, hk]]
    rfl
  rw [h3, h4]
  by_cases hc : event_is_final extra exchange b ∧ ¬ event_is_final extra exchange a
  · rw [if_pos hc, if_pos hc]
  · rw [if_neg hc, if_neg hc]

lemma event_is_final_missing (extra : List String) (exch : Option String)
    (b : RawEvent) (h : b.type = none ∨ b.status = none) :
    event_is_final extra exch b = false := by
  cases exch with
  | none => rfl
  | some ex =>
      rcases h with ht | hs
      · have hkind : eventKind b = "" := by
          unfold eventKind
          rw [ht]
          decide
        simp only [event_is_final]
        by_cases hex : ex = ""
        · simp [hex]
        · rw [if_neg hex, if_pos ⟨by rw [hkind]; decide, by rw [hkind]; decide⟩]
      · simp only [event_is_final]
        by_cases hex : ex = ""
        · simp [hex]
        · rw [if_neg hex]
          by_cases hkd : eventKind b ≠ "deposit" ∧ eventKind b ≠ "withdraw"
          · rw [if_pos hkd]
          · rw [if_neg hkd, hs]

/-! ## Claims -/

/-- C1 (corrected).  When a deposit event whose id is not yet in `seen_ids`
is applied, the segment is closed with pre-flow value
`max(current_total_value − (valuation if known, else 0), 0)` and `net_flows`
is increased by `flow_value` (the valuation if known, else the raw amount);
in particular, for a deposit with no available valuation the pre-flow value
equals `max(current_total_value, 0)` — the raw amount is *not* subtracted —
while `net_flows` still increases by the raw amount. -/
theorem c1_deposit_application (p : String → Option ℚ) (q : String) (v : ℚ)
    (st : AccountState) (ev : FundingEvent)
    (hseen : ev.id ∉ st.seen_ids) (hdep : ev.type = "deposit") :
    ((apply_funding_event p q v st ev).2 = true)
    ∧ ((apply_funding_event p q v st ev).1.net_flows
        = st.net_flows + flowValue p q ev)
    ∧ ((apply_funding_event p q v st ev).1.twr_factor
        = (close_twr_segment st
            (max (v - (eventValuation p q ev).getD 0) 0) (some v)).twr_factor)
    ∧ ((apply_funding_event p q v st ev).1.segment_start_value = some v)
    ∧ ((apply_funding_event p q v st ev).1.seen_ids = insert ev.id st.seen_ids)
    ∧ (eventValuation p q ev = none →
        (apply_funding_event p q v st ev).1.net_flows = st.net_flows + ev.amount
        ∧ (apply_funding_event p q v st ev).1.twr_factor
            = (close_twr_segment st (max v 0) (some v)).twr_factor) := by
  refine ⟨?_, ?_, ?_, ?_, ?_, fun hval => ⟨?_, ?_⟩⟩
  · simp [apply_funding_event, hseen, hdep]
  · simp [apply_funding_event, close_twr_segment, flowValue, hseen, hdep]
  · simp [apply_funding_event, hseen, hdep]
  · simp [apply_funding_event, close_twr_segment, hseen, hdep]
  · simp [apply_funding_event, close_twr_segment, hseen, hdep]
  · simp [apply_funding_event, close_twr_segment, flowValue, hseen, hdep, hval]
  · simp [apply_funding_event, hseen, hdep, hval]

/-- C1 witness: a concrete unpriced deposit of 100 into a 1000-valued
segment is applied, and `net_flows` grows by the raw amount. -/
theorem c1_deposit_application_witness :
    (apply_funding_event (fun _ => none) "USDT" 1000 stC1 evC1).2 = true
    ∧ (apply_funding_event (fun _ => none) "USDT" 1000 stC1 evC1).1.net_flows
        = 100 := by
  have h := c1_deposit_application (fun _ => none) "USDT" 1000 stC1 evC1
    (by decide) rfl
  refine ⟨h.1, ?_⟩
  rw [h.2.1]
  simp [flowValue, eventValuation, stC1, evC1]

/-- C1 counterexample: the claim's pre-flow rule (subtract the flow value,
i.e. the raw amount when unpriced) disagrees with the code.  For an unpriced
deposit of 100 arriving at a current total value of 1000 on a segment that
started at 1000, the code leaves `twr_factor` at 1 (it subtracts 0), while
the claim's rule yields `1000 − 100 = 900` pre-flow, hence a factor of
9/10. -/
theorem c1_preflow_counterexample :
    ((apply_funding_event (fun _ => none) "USDT" 1000 stC1 evC1).1.twr_factor
      = 1)
    ∧ ((apply_deposit_claimed (fun _ => none) "USDT" 1000 stC1 evC1).twr_factor
      = 9 / 10)
    ∧ (apply_funding_event (fun _ => none) "USDT" 1000 stC1 evC1).1
        ≠ apply_deposit_claimed (fun _ => none) "USDT" 1000 stC1 evC1 := by
  have h1 : (apply_funding_event (fun _ => none) "USDT" 1000 stC1 evC1).1.twr_factor
      = 1 := by
    simp [apply_funding_event, close_twr_segment, eventValuation, stC1, evC1]
  have h2 : (apply_deposit_claimed (fun _ => none) "USDT" 1000 stC1 evC1).twr_factor
      = 9 / 10 := by
    simp [apply_deposit_claimed, close_twr_segment, eventValuation,
      flowValue, stC1, evC1]
    norm_num
  refine ⟨h1, h2, fun hcontra => ?_⟩
  rw [hcontra] at h1
  exact absurd (h1.symm.trans h2) (by norm_num)

/-- C2 (confirmed).  `close_twr_segment` multiplies `twr_factor` by
`factor = end_value_preflow / (segment_start_value + segment_net_flows)`
exactly when the denominator is positive, the end value is non-negative and
the factor is positive; in every other case `twr_factor` is left exactly
unchanged. -/
theorem c2_close_segment_factor_guard (st : AccountState) (vEnd : ℚ)
    (vNext : Option ℚ) :
    (close_twr_segment st vEnd vNext).twr_factor =
      if 0 < st.segment_start_value.getD 0 + st.segment_net_flows ∧ 0 ≤ vEnd
          ∧ 0 < vEnd / (st.segment_start_value.getD 0 + st.segment_net_flows)
      then st.twr_factor
            * (vEnd / (st.segment_start_value.getD 0 + st.segment_net_flows))
      else st.twr_factor :=
  close_twr_factor_eq st vEnd vNext

/-- C3 (confirmed).  Applying an event whose id is already in `seen_ids` is a
no-op returning `applied = false`; applying the same event twice — even with
different prices or current valuations on the second attempt — equals
applying it once; and re-delivering a whole event list on a later tick leaves
the ledger state (hence `net_flows`, `twr_factor` and the seen-id set)
identical. -/
theorem c3_idempotent_application :
    (∀ (p : String → Option ℚ) (q : String) (v : ℚ) (st : AccountState)
        (ev : FundingEvent), ev.id ∈ st.seen_ids →
        apply_funding_event p q v st ev = (st, false))
    ∧ (∀ (p p2 : String → Option ℚ) (q q2 : String) (v v2 : ℚ)
        (st : AccountState) (ev : FundingEvent),
        apply_funding_event p2 q2 v2 ((apply_funding_event p q v st ev).1) ev
          = ((apply_funding_event p q v st ev).1, false))
    ∧ (∀ (p p2 : String → Option ℚ) (q q2 : String) (v v2 : ℚ)
        (st : AccountState) (evs : List FundingEvent),
        poll_apply p2 q2 v2 (poll_apply p q v st evs) evs
          = poll_apply p q v st evs) := by
  refine ⟨apply_of_mem, ?_, ?_⟩
  · intro p p2 q q2 v v2 st ev
    exact apply_of_mem p2 q2 v2 _ ev (apply_mem_seen p q v st ev)
  · intro p p2 q q2 v v2 st evs
    exact poll_noop p2 q2 v2 _ evs fun ev hev => poll_mem_seen p q v st evs ev hev

/-- C3 witness: a deposit whose id `d2` was already seen is skipped and the
state is returned untouched. -/
theorem c3_idempotent_application_witness :
    apply_funding_event (fun _ => none) "USDT" 500 stSeen evD2
      = (stSeen, false) :=
  c3_idempotent_application.1 (fun _ => none) "USDT" 500 stSeen evD2 (by decide)

/-- C4 (confirmed).  Among two records sharing a canonical key, in either
arrival order: a final record is kept over a non-final one; a final record is
never displaced by a later non-final duplicate; if neither is final the
earliest-seen record wins; and a record missing its direction (`type`) or
status never supersedes the stored record. -/
theorem c4_dedup_merge_rule (extra : List String) (exchange : Option String)
    (a b : RawEvent) (hk : dedupKey a = dedupKey b) :
    (deduplicate_events extra exchange [[a], [b]]
        = if event_is_final extra exchange b ∧ ¬ event_is_final extra exchange a
          then [b] else [a])
    ∧ (event_is_final extra exchange a →
        deduplicate_events extra exchange [[a], [b]] = [a])
    ∧ (¬ event_is_final extra exchange a ∧ ¬ event_is_final extra exchange b →
        deduplicate_events extra exchange [[a], [b]] = [a])
    ∧ (b.type = none ∨ b.status = none →
        deduplicate_events extra exchange [[a], [b]] = [a]) := by
  have h1 := dedup_pair extra exchange a b hk
  refine ⟨h1, fun hfa => ?_, fun hnn => ?_, fun hmiss => ?_⟩
  · rw [h1]
    simp [hfa]
  · rw [h1]
    simp [hnn.2]
  · rw [h1]
    simp [event_is_final_missing extra exchange b hmiss]

/-- C4 witness: records sharing native id `X1` with statuses `pending` and
`success` merge to the `success` record in both arrival orders. -/
theorem c4_dedup_merge_rule_witness :
    deduplicate_events [] (some "binance") [[evP], [evS]] = [evS]
    ∧ deduplicate_events [] (some "binance") [[evS], [evP]] = [evS] := by
  constructor
  · have h := (c4_dedup_merge_rule [] (some "binance") evP evS (by decide)).1
    rw [h, if_pos ⟨by decide, by decide⟩]
  · have h := (c4_dedup_merge_rule [] (some "binance") evS evP (by decide)).2.1
    exact h (by decide)

/-- C5 (corrected).  `is_final` does fail (raise) on a `(venue, direction)`
pair absent from the table, but nothing validates the table at startup, and
every per-event call site swallows the failure and returns an ordinary
boolean: the deduplicator's `_event_is_final` yields `false`, and
account_monitor's `_is_final` falls back to membership of the normalised
status in a generic completed-token set. -/
theorem c5_unknown_pair_swallowed :
    (∀ (extra : List String) (ex : String) (ev : RawEvent) (stv : String),
        ev.status = some stv →
        is_final extra ex (eventKind ev) stv = none →
        event_is_final extra (some ex) ev = false)
    ∧ (∀ (extra : List String) (exid : Option String) (kind status : String),
        is_final extra (strLower (exid.getD "")) kind status = none →
        monitor_is_final false extra exid kind status
          = decide (normalizeStatus status ∈
              ["ok", "completed", "complete", "success", "succeeded", "done"])) := by
  constructor
  · intro extra ex ev stv hst hnone
    simp only [event_is_final]
    by_cases hex : ex = ""
    · simp [hex]
    · rw [if_neg hex]
      by_cases hkd : eventKind ev ≠ "deposit" ∧ eventKind ev ≠ "withdraw"
      · rw [if_pos hkd]
      · rw [if_neg hkd, hst]
        simp only [hnone]
  · intro extra exid kind status hnone
    simp only [monitor_is_final]
    rw [hnone]
    simp

/-- C5 witness: for the unknown venue `kraken`, the deduplicator's per-event
classification returns the ordinary value `false`, and account_monitor's
wrapper returns the ordinary value `true` for status `ok`. -/
theorem c5_unknown_pair_swallowed_witness :
    event_is_final [] (some "kraken") evK = false
    ∧ monitor_is_final false [] (some "kraken") "deposit" "ok" = true := by
  constructor
  · exact c5_unknown_pair_swallowed.1 [] "kraken" evK "success" rfl (by decide)
  · have h := c5_unknown_pair_swallowed.2 [] (some "kraken") "deposit" "ok"
      (by decide)
    rw [h]
    decide

/-- C5 counterexample: the claim that no per-event call returns an ordinary
true/false for an unknown pair is false — `is_final` itself fails on
`(kraken, deposit)`, yet the per-event call sites return plain booleans. -/
theorem c5_unknown_pair_counterexample :
    is_final [] "kraken" "deposit" "success" = none
    ∧ event_is_final [] (some "kraken") evK = false
    ∧ monitor_is_final false [] (some "kraken") "deposit" "success" = true := by
  exact ⟨by decide, by decide, by decide⟩

/-- C6 (corrected).  The canonical key is the native id when one is present
(the truthy chain `uid`, `id`, `exchange_id`), and otherwise the composite
*triple* `(txId, currency, timestamp)`: two events without native ids agree
on their key exactly when they agree on all three of txId, currency and
timestamp. -/
theorem c6_canonical_key :
    (∀ (ev : RawEvent) (s : String),
        nativeUniqueId ev = some s → dedupKey ev = DedupKey.native s)
    ∧ (∀ e1 e2 : RawEvent,
        nativeUniqueId e1 = none → nativeUniqueId e2 = none →
        (dedupKey e1 = dedupKey e2 ↔
          e1.txId = e2.txId ∧ e1.currency = e2.currency
            ∧ e1.timestamp = e2.timestamp)) := by
  constructor
  · intro ev s h
    simp [dedupKey, h]
  · intro e1 e2 h1 h2
    simp [dedupKey, h1, h2]

/-- C6 witness: two id-less records agreeing on txId, currency and timestamp
receive the same key. -/
theorem c6_canonical_key_witness : dedupKey evA = dedupKey evA2 :=
  (c6_canonical_key.2 evA evA2 (by decide) (by decide)).mpr
    ⟨rfl, rfl, rfl⟩

/-- C6 counterexample: two events without native ids that agree on currency
and timestamp but differ in `txId` get the same key under the claim's rule
yet different keys in the code, and the deduplicator keeps both. -/
theorem c6_composite_key_counterexample :
    dedupKey_claimed evA = dedupKey_claimed evB
    ∧ dedupKey evA ≠ dedupKey evB
    ∧ deduplicate_events [] (some "binance") [[evA], [evB]] = [evA, evB] := by
  exact ⟨by decide, by decide, by decide⟩

/-- C7 (confirmed).  Starting from the initial state (`twr_factor = 1`), any
sequence of lazy initialisations, event applications, segment closes and
period closes keeps `twr_factor` strictly positive. -/
theorem c7_twr_factor_positive (ops : List LedgerOp) :
    0 < (runOps init_state ops).twr_factor :=
  runOps_twr_pos ops init_state (by norm_num [init_state])

/-- C8 (confirmed).  After `close_twr_segment`, `segment_start_value` equals
the supplied next start value (or the end value when none is supplied),
`segment_net_flows` is 0, and `start_value`, `net_flows` and `seen_ids` are
untouched — only `twr_factor`, `segment_start_value` and `segment_net_flows`
can change. -/
theorem c8_close_segment_frame (st : AccountState) (vEnd : ℚ)
    (vNext : Option ℚ) :
    (close_twr_segment st vEnd vNext).segment_start_value
        = some (vNext.getD vEnd)
    ∧ (close_twr_segment st vEnd vNext).segment_net_flows = 0
    ∧ (close_twr_segment st vEnd vNext).start_value = st.start_value
    ∧ (close_twr_segment st vEnd vNext).net_flows = st.net_flows
    ∧ (close_twr_segment st vEnd vNext).seen_ids = st.seen_ids :=
  close_twr_frame st vEnd vNext

/-- C9 (confirmed).  The snapshot's money-weighted return is
`(value − start − flows) / start` for a non-zero start value and `none`
(null) when the start value is 0 or unset; the computation is total, so no
division error can occur. -/
theorem c9_money_weighted_return (value flows : ℚ) :
    (∀ s : ℚ, s ≠ 0 →
      money_weighted_return (some s) value flows
        = some ((value - s - flows) / s))
    ∧ money_weighted_return (some 0) value flows = none
    ∧ money_weighted_return none value flows = none := by
  refine ⟨fun s hs => ?_, ?_, rfl⟩
  · simp [money_weighted_return, hs]
  · simp [money_weighted_return]

/-- C9 witness: the spec's end-to-end example —
`(1200 − 1000 − 100) / 1000 = 10%`. -/
theorem c9_money_weighted_return_witness :
    money_weighted_return (some 1000) 1200 100 = some (1 / 10) := by
  have h := (c9_money_weighted_return 1200 100).1 1000 (by norm_num)
  rw [h]
  norm_num

/-- C10 (confirmed).  No ledger operation ever makes `segment_net_flows`
non-zero: from the initial state, after any operation sequence it is 0, so
the TWR denominator `segment_start_value + segment_net_flows` always equals
`segment_start_value` alone. -/
theorem c10_segment_net_flows_zero (ops : List LedgerOp) :
    (runOps init_state ops).segment_net_flows = 0
    ∧ (runOps init_state ops).segment_start_value.getD 0
        + (runOps init_state ops).segment_net_flows
      = (runOps init_state ops).segment_start_value.getD 0 := by
  have h := runOps_snf_zero ops init_state rfl
  exact ⟨h, by rw [h, add_zero]⟩

end PMS
